import Mathlib

/-!
Verification of the vibify repository: a shallow embedding of the gateway
and pagination logic of src/Spotify.js, src/unnamed/part_003 and
src/services/Recommendations.js, together with theorems settling the
frozen claims about them.

Modelling conventions: machine time and added-at timestamps are integers
(day granularity for dates); the upstream service is an oracle passed as a
parameter; a thrown JS exception is modelled as an Option none (or an
Except error when the thrown value matters); while loops become fuel-based
structural recursion with the fuel chosen large enough to be unreachable,
so that all definitions evaluate by kernel reduction.
-/

namespace Vibify

/-! ### Saved tracks and the month scan (src/Spotify.js lines 325-353) -/

/-- One saved track item as returned by the saved-tracks endpoint:
`uri` identifies the track, `addedAt` is the added_at timestamp. -/
structure Track where
  uri : Nat
  addedAt : Int
deriving DecidableEq, Repr

/-- The filter of findLikedFromMonth:
`addedAt >= startDate && addedAt <= endDate`. -/
def inRange (startD endD : Int) (t : Track) : Bool :=
  decide (startD ≤ t.addedAt) && decide (t.addedAt ≤ endD)

/-- The while loop of findLikedFromMonth (src/Spotify.js lines 333-351).
State: `total` (initially 1, overwritten by the reported total `libTotal`
after each fetch), the `remaining` suffix of the library not yet fetched
(the fetch at offset o returns `(lib.drop o).take 25`), and the collected
`likedSongs`. Result: the returned list, or `none` when the loop throws
the TypeError from `songs[0].added_at` on an empty page; the second
component counts page fetches. The fuel argument only makes the recursion
structural; it is unreachable when at least `remaining.length + 1`. -/
def flmGo (startD endD : Int) (libTotal : Nat) :
    Nat → Nat → List Track → List Track → Option (List Track) × Nat
  | 0, _, _, _ => (none, 0)
  | fuel + 1, total, remaining, likedSongs =>
    if likedSongs.length < total then
      match remaining with
      | [] => (none, 1)
      | song :: _ =>
        let songs := remaining.take 25
        if song.addedAt < startD ∨ (endD < song.addedAt ∧ 0 < likedSongs.length) then
          (some likedSongs, 1)
        else
          let step := flmGo startD endD libTotal fuel libTotal (remaining.drop 25)
            (likedSongs ++ songs.filter (inRange startD endD))
          (step.1, step.2 + 1)
    else
      (some likedSongs, 0)

/-- findLikedFromMonth (src/Spotify.js lines 325-353): scan the saved
tracks `lib` (most recent first as delivered by the upstream), collecting
the items whose added_at lies in `[startD, endD]`. Initial loop state:
`likedSongs = []`, `offset = 0`, `total = 1`. -/
def findLikedFromMonth (lib : List Track) (startD endD : Int) :
    Option (List Track) × Nat :=
  flmGo startD endD lib.length (lib.length + 1) 1 lib []

/-- Ceiling division, `ceil(n / m)` on naturals. -/
def ceilDiv (n m : Nat) : Nat :=
  (n + m - 1) / m

/-- The while loop of getAudioFeatures (src/Spotify.js lines 389-394).
`f` is the upstream oracle giving the audio feature record of one track
id (the endpoint returns exactly one entry per requested id); the loop
fetches slices of 100 ids and concatenates the responses. `none` marks
the state in which the loop can no longer make progress (empty slice),
which is unreachable when `total` is the length of the full id list.
Second component counts batch fetches. -/
def gafGo (f : Nat → Int) (total : Nat) :
    Nat → List Nat → List Int → Option (List Int) × Nat
  | 0, _, _ => (none, 0)
  | fuel + 1, remaining, audioFeatures =>
    if audioFeatures.length < total then
      match remaining with
      | [] => (none, 1)
      | _ :: _ =>
        let step := gafGo f total fuel (remaining.drop 100)
          (audioFeatures ++ (remaining.take 100).map f)
        (step.1, step.2 + 1)
    else
      (some audioFeatures, 0)

/-- getAudioFeatures (src/Spotify.js lines 383-397): `total` is the length
of the requested id list, the accumulator starts empty at offset 0. -/
def getAudioFeatures (f : Nat → Int) (tracksIds : List Nat) :
    Option (List Int) × Nat :=
  gafGo f tracksIds.length (tracksIds.length + 1) tracksIds []

/-! ### Batched playlist insertion (src/Spotify.js lines 308-315) -/

/-- The batching loop `for (let i = 0; i < songUris.length; i += m)` with
payload `songUris.slice(i, i + m)`: the list of slices of size `m`, in
order, the last one possibly shorter. Fuel-based to keep the recursion
structural; `l.length` fuel suffices for every positive `m`. -/
def chunkEveryGo (m : Nat) : Nat → List Nat → List (List Nat)
  | 0, _ => []
  | _, [] => []
  | fuel + 1, l@(_ :: _) => l.take m :: chunkEveryGo m fuel (l.drop m)

/-- The batch schedule of the insertion loop over a whole uri list. -/
def chunkEvery (m : Nat) (l : List Nat) : List (List Nat) :=
  chunkEveryGo m l.length l

/-- Batch size of addTracksToPlaylistAndRetrieve: the constant `max`
of src/Spotify.js line 16. -/
def maxBatch : Nat := 25

/-- Result of addTracksToPlaylistAndRetrieve: the payloads of the
add-tracks calls in issue order, the number of final playlist fetches,
and the returned `playlistWithTracks.body` (the upstream response to
getPlaylist, supplied as the oracle `playlistBody`). -/
structure AddOut where
  addCalls : List (List Nat)
  fetchCalls : Nat
  result : Nat
deriving DecidableEq, Repr

/-- addTracksToPlaylistAndRetrieve (src/Spotify.js lines 308-315): one
add-tracks call per 25-slice of the uris, then exactly one getPlaylist
call whose body is returned. -/
def addTracksToPlaylistAndRetrieve (playlistBody : Nat) (songUris : List Nat) : AddOut :=
  { addCalls := chunkEvery maxBatch songUris
    fetchCalls := 1
    result := playlistBody }

/-! ### createPlaylist (src/Spotify.js lines 283-306) -/

/-- Observable outcome of createPlaylist: the hydrated playlist, the
undefined return of the zero-songs early exit, or the rethrown failure
of the try block. -/
inductive CpResult where
  | created (body : Nat)
  | noSongs
  | failed
deriving DecidableEq, Repr

/-- createPlaylist outcome together with the number of playlist-creation
calls and of add-tracks calls it issued. -/
structure CpOut where
  result : CpResult
  createCalls : Nat
  addCalls : Nat
deriving DecidableEq, Repr

/-- createPlaylist (src/Spotify.js lines 283-306): run the month scan; on
a thrown scan the catch block rethrows (failed); on zero collected songs
return undefined; otherwise one createPlaylist call, then the batched
insertion of the collected uris and the final fetch. -/
def createPlaylist (playlistBody : Nat) (lib : List Track) (startD endD : Int) : CpOut :=
  match (findLikedFromMonth lib startD endD).1 with
  | none => { result := .failed, createCalls := 0, addCalls := 0 }
  | some songsFromMonth =>
    if songsFromMonth.length = 0 then
      { result := .noSongs, createCalls := 0, addCalls := 0 }
    else
      { result := .created (addTracksToPlaylistAndRetrieve playlistBody
          (songsFromMonth.map Track.uri)).result
        createCalls := 1
        addCalls := (addTracksToPlaylistAndRetrieve playlistBody
          (songsFromMonth.map Track.uri)).addCalls.length }

/-! ### The call gateway (src/Spotify.js lines 51-71 and
src/unnamed/part_003 lines 46-97) -/

/-- Errors a gateway call can surface: the rethrown upstream error object
(carrying its status code), or the wrapper error thrown by
handleTokenRefresh when the OAuth exchange fails. -/
inductive GwErr where
  | upstream (statusCode : Nat)
  | refreshFailed
deriving DecidableEq, Repr

/-- Scripted outcome of one execution of the wrapped operation `apiCall`,
together with the behaviour of the collaborators the gateway consults in
response to a failure: for an error, its status code, the retry-after
header value, and whether the token refresh attempted afterwards
succeeds. -/
inductive ApiOutcome where
  | ok (v : Nat)
  | err (statusCode : Nat) (retryAfter : Nat) (refreshSucceeds : Bool)
deriving DecidableEq, Repr

/-- makeSpotifyApiCall of src/Spotify.js (lines 51-71): invoke the
operation; on any failure refresh the token (a failed refresh throws
refreshFailed) and invoke the operation exactly once more, rethrowing a
second failure. `a1`, `a2` script the two possible executions. Returns
the number of executions of the operation and the outcome. -/
def makeSpotifyApiCallV1 (a1 a2 : ApiOutcome) : Nat × Except GwErr Nat :=
  match a1 with
  | .ok v => (1, .ok v)
  | .err _ _ refreshSucceeds =>
    if refreshSucceeds then
      match a2 with
      | .ok v => (2, .ok v)
      | .err s2 _ _ => (2, .error (.upstream s2))
    else
      (1, .error .refreshFailed)

/-- makeSpotifyApiCall of src/unnamed/part_003 (lines 46-97), retry
skeleton: invoke the operation; on a 429 wait out the advertised delay
and re-run the whole call; on any other failure refresh the token (a
failed refresh throws refreshFailed) and re-run the whole call. The
script lists the outcomes of the successive executions of the operation;
an exhausted script means the run is still going (the recursion of the
source never stops by itself). Returns the number of executions together
with the final outcome, if the run settles within the script. -/
def makeSpotifyApiCallV3 : List ApiOutcome → Nat × Option (Except GwErr Nat)
  | [] => (0, none)
  | .ok v :: _ => (1, some (.ok v))
  | .err statusCode _ refreshSucceeds :: rest =>
    if statusCode = 429 then
      let step := makeSpotifyApiCallV3 rest
      (step.1 + 1, step.2)
    else if refreshSucceeds then
      let step := makeSpotifyApiCallV3 rest
      (step.1 + 1, step.2)
    else
      (1, some (.error .refreshFailed))

/-! ### Credentials: users table, expiry check, token refresh, grant
(src/unnamed/part_003 lines 54-74, 166-179 and 949-960) -/

/-- A row of the users table (schema in the create-users migration):
user_id, access_token, refresh_token, expires_in, api_token, updated_at
(seconds). -/
structure UserRow where
  user_id : String
  access_token : String
  refresh_token : String
  expires_in : Int
  api_token : String
  updated_at : Int
deriving DecidableEq, Repr

/-- An access/refresh token pair as returned by refreshAccessToken. -/
structure TokenPair where
  access_token : String
  refresh_token : String
deriving DecidableEq, Repr

/-- Token expiration window of part_003 line 60, in seconds. -/
def tokenExpirationTime : Int := 3600

/-- The credential-resolution prefix of makeSpotifyApiCall in
src/unnamed/part_003 (lines 54-74): look the user up (a missing user
throws, modelled none); if `now - updated_at >= 3600` call the refresh
endpoint (oracle `refreshed`), persist the new pair with
`updated_at := dbNow` on the rows of this user_id, and use the refreshed
access token; otherwise use the stored tokens unmodified. Returns the
users table after the step, the access token applied to the outbound
client, and whether the refresh endpoint was called. -/
def gatewayPrepare (now dbNow : Int) (refreshed : TokenPair)
    (table : List UserRow) (id : String) :
    Option (List UserRow × String × Bool) :=
  match table.find? (fun r => r.user_id == id) with
  | none => none
  | some user =>
    if tokenExpirationTime ≤ now - user.updated_at then
      some (table.map (fun r =>
        if r.user_id == id then
          { r with access_token := refreshed.access_token,
                   refresh_token := refreshed.refresh_token,
                   updated_at := dbNow }
        else r),
        refreshed.access_token, true)
    else
      some (table, user.access_token, false)

/-- The users-table update of handleTokenRefresh (src/unnamed/part_003
lines 166-179): every row whose refresh_token matches gets the new
access_token and refresh_token; no other column is written. -/
def handleTokenRefreshDb (table : List UserRow) (refreshToken : String)
    (refreshedTokens : TokenPair) : List UserRow :=
  table.map fun r =>
    if r.refresh_token == refreshToken then
      { r with access_token := refreshedTokens.access_token,
               refresh_token := refreshedTokens.refresh_token }
    else r

/-- authorizationCodeGrant (src/unnamed/part_003 lines 949-960): derive
the api token as sha256 of `id + access_token` (the hash function is
kept abstract as the oracle `hash`), insert the user row, return the
table and the api token. -/
def authorizationCodeGrant (hash : String → String) (dbNow : Int)
    (table : List UserRow) (id access_token refresh_token : String)
    (expires_in : Int) : List UserRow × String :=
  let api_token := hash (id ++ access_token)
  (table ++ [{ user_id := id, access_token := access_token,
               refresh_token := refresh_token, expires_in := expires_in,
               api_token := api_token, updated_at := dbNow }],
   api_token)

/-! ### Recommendations service (src/services/Recommendations.js) -/

/-- The options object the recommendations route passes to
createRecommendationPlaylist: the four condition flags, the optional
genre, the two feature switches and the optional target-value map
(none models a null or undefined property). -/
structure RecOptions where
  genre : Option String
  recentlyPlayed : Bool
  mostPlayed : Bool
  likedTracks : Bool
  currentlyPlaying : Bool
  useAudioFeatures : Bool
  useTrackSeeds : Bool
  targetValues : Option (List (String × Int))
deriving DecidableEq, Repr

/-- JS truthiness of the genre property: null or the empty string are
falsy, any other string is truthy. -/
def genreTruthy : Option String → Bool
  | none => false
  | some s => s ≠ ""

/-- JS truthiness of the targetValues property: any object, even an
empty one, is truthy; only null or undefined are falsy. -/
def targetValuesTruthy : Option (List (String × Int)) → Bool
  | none => false
  | some _ => true

/-- hasValidOptions (Recommendations.js lines 27-29):
`Object.values(options).some(value => value)`. -/
def hasValidOptions (o : RecOptions) : Bool :=
  genreTruthy o.genre || o.recentlyPlayed || o.mostPlayed || o.likedTracks
    || o.currentlyPlaying || o.useAudioFeatures || o.useTrackSeeds
    || targetValuesTruthy o.targetValues

/-- The four conditions fetchTracks (part_003 lines 711-731) knows how to
fetch; any other key iterated by fetchTracksBasedOnConditions falls
through to the empty list without an upstream call. -/
inductive FetchCond where
  | recentlyPlayed
  | mostPlayed
  | likedTracks
  | currentlyPlaying
deriving DecidableEq, Repr

/-- Upstream environment of one recommendation build: the track ids
fetchTracks returns per condition and how many upstream calls that fetch
makes, the uris of the getRecommendations response, and the body of the
created playlist. -/
structure RecEnv where
  fetched : FetchCond → List Nat
  fetchCalls : FetchCond → Nat
  recommendationsUris : List Nat
  playlistBody : Nat

/-- fetchTracksBasedOnConditions (Recommendations.js lines 31-47):
iterate the truthy condition entries of the options (genre removed) in
property order, concatenating the fetched ids; the keys that are not one
of the four fetchMethods contribute nothing and cost no upstream call.
Returns the concatenated song ids and the number of upstream calls. -/
def fetchTracksBasedOnConditions (env : RecEnv) (o : RecOptions) :
    List Nat × Nat :=
  let pick (flag : Bool) (c : FetchCond) : List Nat × Nat :=
    if flag then (env.fetched c, env.fetchCalls c) else ([], 0)
  let r := pick o.recentlyPlayed .recentlyPlayed
  let m := pick o.mostPlayed .mostPlayed
  let l := pick o.likedTracks .likedTracks
  let c := pick o.currentlyPlaying .currentlyPlaying
  (r.1 ++ m.1 ++ l.1 ++ c.1, r.2 + m.2 + l.2 + c.2)

/-- A result of createRecommendationPlaylist: a structured error object
or the hydrated playlist body. -/
inductive RecResult where
  | errorResult (msg : String)
  | playlist (body : Nat)
deriving DecidableEq, Repr

/-- createRecommendationPlaylist (Recommendations.js lines 9-25): guard
on hasValidOptions, fetch the candidate ids, guard on the empty
candidate list, then one getRecommendations call, one createPlaylist
call and the batched insertion with its final fetch. Returns the result
and the total number of upstream calls issued. The amount argument only
bounds page sizes inside the fetches (checkAmount is a pure clamp from
the absent utils/constants module) and is folded into the environment
oracle. -/
def createRecommendationPlaylist (env : RecEnv) (o : RecOptions) :
    RecResult × Nat :=
  if !hasValidOptions o then
    (.errorResult "No options selected.", 0)
  else
    let fetched := fetchTracksBasedOnConditions env o
    if fetched.1.isEmpty then
      (.errorResult "No songs found.", fetched.2)
    else
      let added := addTracksToPlaylistAndRetrieve env.playlistBody
        env.recommendationsUris
      (.playlist added.result,
        fetched.2 + 1 + 1 + added.addCalls.length + added.fetchCalls)

/-! ### Arithmetic and batching lemmas -/

/-- Ceiling division of zero. -/
theorem ceilDiv_zero_left {m : Nat} (hm : 0 < m) : ceilDiv 0 m = 0 := by
  unfold ceilDiv
  exact Nat.div_eq_of_lt (by omega)

/-- Peeling one full batch off a ceiling division. -/
theorem ceilDiv_step {n m : Nat} (hn : 0 < n) (hm : 0 < m) :
    ceilDiv n m = ceilDiv (n - m) m + 1 := by
  unfold ceilDiv
  rcases Nat.le_total n m with h | h
  · rw [Nat.sub_eq_zero_of_le h]
    rw [show n + m - 1 = (n - 1) + m by omega, Nat.add_div_right _ hm,
      Nat.div_eq_of_lt (by omega), Nat.div_eq_of_lt (by omega)]
  · rw [show n + m - 1 = (n - m + m - 1) + m by omega, Nat.add_div_right _ hm]

/-- Fuel bookkeeping for the batching loop. -/
theorem chunk_fuel_step {m k : Nat} {x : Nat} {xs : List Nat}
    (hm : 0 < m) (hl : (x :: xs).length ≤ k + 1) :
    ((x :: xs).drop m).length ≤ k := by
  rw [List.length_drop]
  simp only [List.length_cons] at hl ⊢
  omega

/-- The batching loop covers the whole list, in order. -/
theorem chunkEveryGo_join {m : Nat} (hm : 0 < m) :
    ∀ (fuel : Nat) (l : List Nat), l.length ≤ fuel →
      (chunkEveryGo m fuel l).flatten = l := by
  intro fuel
  induction fuel with
  | zero =>
    intro l hl
    have : l = [] := List.eq_nil_of_length_eq_zero (by omega)
    simp [this, chunkEveryGo]
  | succ k ih =>
    intro l hl
    match l with
    | [] => simp [chunkEveryGo]
    | x :: xs =>
      simp only [chunkEveryGo, List.flatten_cons]
      rw [ih _ (chunk_fuel_step hm hl)]
      exact List.take_append_drop m (x :: xs)

/-- The batching loop issues exactly ceil(length / m) batches. -/
theorem chunkEveryGo_length {m : Nat} (hm : 0 < m) :
    ∀ (fuel : Nat) (l : List Nat), l.length ≤ fuel →
      (chunkEveryGo m fuel l).length = ceilDiv l.length m := by
  intro fuel
  induction fuel with
  | zero =>
    intro l hl
    have : l = [] := List.eq_nil_of_length_eq_zero (by omega)
    simp [this, chunkEveryGo, ceilDiv_zero_left hm]
  | succ k ih =>
    intro l hl
    match l with
    | [] => simp [chunkEveryGo, ceilDiv_zero_left hm]
    | x :: xs =>
      simp only [chunkEveryGo, List.length_cons]
      rw [ih _ (chunk_fuel_step hm hl)]
      rw [ceilDiv_step (n := xs.length + 1) (by omega) hm]
      rw [List.length_drop]
      simp

/-- Every batch is nonempty and no larger than m. -/
theorem chunkEveryGo_mem {m : Nat} (hm : 0 < m) :
    ∀ (fuel : Nat) (l : List Nat), l.length ≤ fuel →
      ∀ b ∈ chunkEveryGo m fuel l, b ≠ [] ∧ b.length ≤ m := by
  intro fuel
  induction fuel with
  | zero =>
    intro l hl
    have : l = [] := List.eq_nil_of_length_eq_zero (by omega)
    simp [this, chunkEveryGo]
  | succ k ih =>
    intro l hl b hb
    match l with
    | [] => simp [chunkEveryGo] at hb
    | x :: xs =>
      simp only [chunkEveryGo, List.mem_cons] at hb
      rcases hb with hb | hb
      · subst hb
        constructor
        · simp only [ne_eq, List.take_eq_nil_iff]
          push_neg
          exact ⟨hm.ne', by simp⟩
        · rw [List.length_take]
          exact Nat.min_le_left _ _
      · exact ih _ (chunk_fuel_step hm hl) b hb

/-- Every batch but the last has exactly m elements. -/
theorem chunkEveryGo_dropLast {m : Nat} (hm : 0 < m) :
    ∀ (fuel : Nat) (l : List Nat), l.length ≤ fuel →
      ∀ b ∈ (chunkEveryGo m fuel l).dropLast, b.length = m := by
  intro fuel
  induction fuel with
  | zero =>
    intro l hl
    have : l = [] := List.eq_nil_of_length_eq_zero (by omega)
    simp [this, chunkEveryGo]
  | succ k ih =>
    intro l hl b hb
    match l with
    | [] => simp [chunkEveryGo] at hb
    | x :: xs =>
      by_cases hrest : (x :: xs).drop m = []
      · have hlen : (x :: xs).length ≤ m := by
          have h2 := congrArg List.length hrest
          rw [List.length_drop] at h2
          simp only [List.length_nil] at h2
          omega
        simp only [chunkEveryGo, hrest] at hb
        have : chunkEveryGo m k ([] : List Nat) = [] := by
          cases k <;> rfl
        rw [this] at hb
        simp at hb
      · have hlong : m < (x :: xs).length := by
          by_contra hcon
          exact hrest (List.drop_of_length_le (by omega))
        have hrec : ((x :: xs).drop m).length ≤ k := chunk_fuel_step hm hl
        simp only [chunkEveryGo] at hb
        have hcons : chunkEveryGo m k ((x :: xs).drop m) ≠ [] := by
          obtain ⟨y, ys, hys⟩ : ∃ y ys, (x :: xs).drop m = y :: ys := by
            cases hdm : (x :: xs).drop m with
            | nil => exact absurd hdm hrest
            | cons y ys => exact ⟨y, ys, rfl⟩
          cases k with
          | zero =>
            exfalso
            simp only [List.length_cons] at hl hlong
            omega
          | succ k2 =>
            rw [hys]
            simp [chunkEveryGo]
        rw [List.dropLast_cons_of_ne_nil hcons] at hb
        rcases List.mem_cons.mp hb with hb | hb
        · subst hb
          rw [List.length_take]
          simp only [List.length_cons] at hlong ⊢
          omega
        · exact ih _ hrec b hb

/-! ### Audio-feature loop lemmas -/

/-- The audio-feature loop, started with a total equal to the number of
ids still to cover plus the accumulator, returns all features in order
and fetches exactly ceil(remaining / 100) batches. -/
theorem gafGo_spec (f : Nat → Int) :
    ∀ (fuel : Nat) (remaining : List Nat) (acc : List Int) (total : Nat),
      remaining.length < fuel →
      total = acc.length + remaining.length →
      gafGo f total fuel remaining acc
        = (some (acc ++ remaining.map f), ceilDiv remaining.length 100) := by
  intro fuel
  induction fuel with
  | zero =>
    intro remaining acc total hfuel htot
    omega
  | succ fu ih =>
    intro remaining acc total hfuel htot
    match remaining with
    | [] =>
      have hg : ¬ acc.length < total := by simp at htot; omega
      simp only [gafGo, if_neg hg]
      simp [ceilDiv_zero_left]
    | x :: xs =>
      have hg : acc.length < total := by simp at htot; simp [htot]
      simp only [gafGo, if_pos hg]
      rw [ih ((x :: xs).drop 100) (acc ++ ((x :: xs).take 100).map f) total
        (by simp only [List.length_drop] at hfuel ⊢; simp only [List.length_cons] at hfuel ⊢; omega)
        (by simp only [List.length_append, List.length_map, List.length_take,
              List.length_drop] at htot ⊢; omega)]
      rw [List.append_assoc, ← List.map_append, List.take_append_drop]
      rw [ceilDiv_step (n := (x :: xs).length) (by simp) (by omega)]
      simp

/-! ### Month-scan loop lemmas -/

/-- Unfolding of the in-range test to arithmetic. -/
theorem inRange_iff (s e : Int) (t : Track) :
    inRange s e t = true ↔ s ≤ t.addedAt ∧ t.addedAt ≤ e := by
  simp [inRange]

/-- Whatever the month-scan loop returns extends its accumulator by the
in-range elements of some prefix of the unfetched suffix: the loop never
invents, reorders or re-includes items and only keeps in-range ones. -/
theorem flmGo_some_take (s e : Int) (T : Nat) :
    ∀ (fuel total : Nat) (remaining acc l : List Track),
      (flmGo s e T fuel total remaining acc).1 = some l →
      ∃ k, l = acc ++ (remaining.take k).filter (inRange s e) := by
  intro fuel
  induction fuel with
  | zero =>
    intro total remaining acc l h
    simp [flmGo] at h
  | succ fu ih =>
    intro total remaining acc l h
    by_cases hg : acc.length < total
    · match remaining with
      | [] => simp [flmGo, if_pos hg] at h
      | song :: rest =>
        simp only [flmGo, if_pos hg] at h
        by_cases hbr : song.addedAt < s ∨ (e < song.addedAt ∧ 0 < acc.length)
        · rw [if_pos hbr] at h
          simp only [Option.some.injEq] at h
          exact ⟨0, by simp [← h]⟩
        · rw [if_neg hbr] at h
          simp only at h
          obtain ⟨k, hk⟩ := ih T ((song :: rest).drop 25)
            (acc ++ ((song :: rest).take 25).filter (inRange s e)) l h
          refine ⟨25 + k, ?_⟩
          rw [hk, List.append_assoc, ← List.filter_append, ← List.take_add]
    · simp only [flmGo, if_neg hg, Option.some.injEq] at h
      exact ⟨0, by simp [← h]⟩

/-- Under monotonically non-increasing timestamps, a month-scan run that
returns (started from a state reachable from findLikedFromMonth) returns
exactly the in-range elements of the whole library. -/
theorem flmGo_pairwise_some (s e : Int) (lib : List Track)
    (hmono : lib.Pairwise fun a b => b.addedAt ≤ a.addedAt) :
    ∀ (fuel total : Nat) (pre remaining acc l : List Track),
      lib = pre ++ remaining →
      acc = pre.filter (inRange s e) →
      (total = lib.length ∨ (total = 1 ∧ pre = [])) →
      (flmGo s e lib.length fuel total remaining acc).1 = some l →
      l = lib.filter (inRange s e) := by
  intro fuel
  induction fuel with
  | zero =>
    intro total pre remaining acc l hlib hacc htot h
    simp [flmGo] at h
  | succ fu ih =>
    intro total pre remaining acc l hlib hacc htot h
    by_cases hg : acc.length < total
    · match remaining with
      | [] => simp [flmGo, if_pos hg] at h
      | song :: rest =>
        simp only [flmGo, if_pos hg] at h
        by_cases hbr : song.addedAt < s ∨ (e < song.addedAt ∧ 0 < acc.length)
        · rw [if_pos hbr] at h
          simp only [Option.some.injEq] at h
          subst h
          rcases hbr with hlt | ⟨hgt, hne⟩
          · have hpair := hmono
            rw [hlib] at hpair
            have hrem := (List.pairwise_append.mp hpair).2.1
            have hhead := (List.pairwise_cons.mp hrem).1
            have hnil : (song :: rest).filter (inRange s e) = [] := by
              apply List.filter_eq_nil_iff.mpr
              intro a ha
              rcases List.mem_cons.mp ha with rfl | ha
              · simp [inRange_iff]
                intro hs
                omega
              · have := hhead a ha
                simp [inRange_iff]
                intro hs
                omega
            rw [hlib, List.filter_append, hnil, List.append_nil, hacc]
          · exfalso
            have hccne : pre.filter (inRange s e) ≠ [] := by
              intro hh
              rw [hacc, hh] at hne
              simp at hne
            obtain ⟨c, hc⟩ := List.exists_mem_of_ne_nil _ hccne
            have hcmem := List.mem_filter.mp hc
            have hpair := hmono
            rw [hlib] at hpair
            have hcross := (List.pairwise_append.mp hpair).2.2 c hcmem.1 song
              (List.mem_cons_self song rest)
            have hce := (inRange_iff s e c).mp hcmem.2
            omega
        · rw [if_neg hbr] at h
          simp only at h
          refine ih lib.length (pre ++ (song :: rest).take 25) ((song :: rest).drop 25)
            (acc ++ ((song :: rest).take 25).filter (inRange s e)) l ?_ ?_ (Or.inl rfl) h
          · rw [List.append_assoc, List.take_append_drop, hlib]
          · rw [hacc, List.filter_append]
    · simp only [flmGo, if_neg hg, Option.some.injEq] at h
      subst h
      rcases htot with htot | ⟨htot, hpre⟩
      · have hle : (pre.filter (inRange s e)).length ≤ pre.length :=
          pre.length_filter_le _
        have hlen : lib.length = pre.length + remaining.length := by
          rw [hlib, List.length_append]
        have hrem : remaining.length = 0 := by
          rw [← hacc] at hle
          omega
        have hremnil : remaining = [] := List.eq_nil_of_length_eq_zero hrem
        rw [hacc, hlib, hremnil, List.append_nil]
      · exfalso
        rw [hpre] at hacc
        simp only [List.filter_nil] at hacc
        rw [hacc] at hg
        simp [htot] at hg

/-- The month-scan loop fetches at most ceil(remaining / 25) + 1 pages:
one fetch per 25 consumed items plus possibly the final empty page. -/
theorem flmGo_count_le (s e : Int) (T : Nat) :
    ∀ (fuel total : Nat) (remaining acc : List Track),
      (flmGo s e T fuel total remaining acc).2 ≤ ceilDiv remaining.length 25 + 1 := by
  intro fuel
  induction fuel with
  | zero =>
    intro total remaining acc
    simp [flmGo]
  | succ fu ih =>
    intro total remaining acc
    by_cases hg : acc.length < total
    · match remaining with
      | [] =>
        simp [flmGo, if_pos hg]
      | song :: rest =>
        simp only [flmGo, if_pos hg]
        by_cases hbr : song.addedAt < s ∨ (e < song.addedAt ∧ 0 < acc.length)
        · rw [if_pos hbr]
          simp only
          omega
        · rw [if_neg hbr]
          simp only
          have hstep := ih T ((song :: rest).drop 25)
            (acc ++ ((song :: rest).take 25).filter (inRange s e))
          have harith : ceilDiv ((song :: rest).drop 25).length 25 + 1
              = ceilDiv (song :: rest).length 25 := by
            rw [List.length_drop]
            rw [ceilDiv_step (n := (song :: rest).length) (by simp) (by omega)]
          omega
    · simp [flmGo, if_neg hg]

/-! ### Claims -/

/-- Claim C1, counterexample: in the part_003 gateway, two consecutive
non-429 failures (with the refresh succeeding) do not stop at 2
invocations; the scripted third execution of the operation runs and its
value is returned, so the operation is invoked 3 times on the non-429
path, contradicting the claimed exactly-2 bound. -/
theorem C1_counterexample :
    makeSpotifyApiCallV3 [.err 500 0 true, .err 500 0 true, .ok 7]
      = (3, some (.ok 7)) := rfl

/-- Claim C1, amended: the src/Spotify.js gateway refreshes once and
retries the operation exactly once on any failure, so a double failure
gives exactly 2 invocations with the second error propagated, and no run
ever invokes the operation more than twice; the part_003 gateway instead
re-runs the whole call recursively after each refresh, so k consecutive
non-429 failures with succeeding refreshes give k + 1 invocations,
unboundedly. -/
theorem C1_amended_retry_bound :
    (∀ s1 r1 s2 r2 b2, makeSpotifyApiCallV1 (.err s1 r1 true) (.err s2 r2 b2)
        = (2, Except.error (GwErr.upstream s2))) ∧
    (∀ a1 a2, (makeSpotifyApiCallV1 a1 a2).1 ≤ 2) ∧
    (∀ k v, makeSpotifyApiCallV3
        (List.replicate k (ApiOutcome.err 500 0 true) ++ [ApiOutcome.ok v])
        = (k + 1, some (Except.ok v))) := by
  refine ⟨fun s1 r1 s2 r2 b2 => rfl, ?_, ?_⟩
  · intro a1 a2
    match a1 with
    | .ok v => simp [makeSpotifyApiCallV1]
    | .err s r true =>
      match a2 with
      | .ok v => simp [makeSpotifyApiCallV1]
      | .err s2 r2 b2 => simp [makeSpotifyApiCallV1]
    | .err s r false => simp [makeSpotifyApiCallV1]
  · intro k v
    induction k with
    | zero => rfl
    | succ n ih => simp [List.replicate_succ, makeSpotifyApiCallV3, ih]

/-- Claim C3, counterexample: a library consisting of one track liked
after the target month is monotonically non-increasing, yet
findLikedFromMonth does not return the in-range items (the empty list):
the loop runs past the only page and throws on the empty one (modelled
as none). Dates are encoded yyyymmdd; the target month is March 2024. -/
theorem C3_counterexample :
    ([⟨0, 20240415⟩] : List Track).Pairwise (fun a b => b.addedAt ≤ a.addedAt) ∧
    (findLikedFromMonth [⟨0, 20240415⟩] 20240301 20240331).1 = none ∧
    (findLikedFromMonth [⟨0, 20240415⟩] 20240301 20240331).1
      ≠ some (([⟨0, 20240415⟩] : List Track).filter (inRange 20240301 20240331)) := by
  refine ⟨?_, by decide, by decide⟩
  simp

/-- Claim C3, amended: for saved-track pages with monotonically
non-increasing added_at, whenever findLikedFromMonth returns a list
(rather than throwing on an empty page past the end of the history), that
list is exactly the items whose added_at lies in the closed month
interval, and no others. -/
theorem C3_month_filter_exact : ∀ (lib : List Track) (s e : Int) (l : List Track),
    lib.Pairwise (fun a b => b.addedAt ≤ a.addedAt) →
    (findLikedFromMonth lib s e).1 = some l →
    l = lib.filter (inRange s e) := by
  intro lib s e l hmono h
  exact flmGo_pairwise_some s e lib hmono (lib.length + 1) 1 [] lib [] l rfl rfl
    (Or.inr ⟨rfl, rfl⟩) h

/-- Claim C3, witness: a one-track library inside the month. -/
theorem C3_month_filter_exact_witness :
    ([⟨0, 15⟩] : List Track) = ([⟨0, 15⟩] : List Track).filter (inRange 10 20) :=
  C3_month_filter_exact [⟨0, 15⟩] 10 20 [⟨0, 15⟩] (by simp) (by decide)

/-- Claim C4, counterexample: a library with one saved track liked after
the target month reports total = 1, so the claimed bound is
ceil(1 / 25) = 1 page fetch, but findLikedFromMonth performs 2 fetches
(the page with the track, then the empty page it throws on). -/
theorem C4_counterexample :
    (findLikedFromMonth [⟨0, 30⟩] 10 20).2 = 2 ∧
    ¬ ((findLikedFromMonth [⟨0, 30⟩] 10 20).2 ≤ ceilDiv 1 25) := by
  decide

/-- Claim C4, amended: getAudioFeatures over a finite id list always
terminates with exactly ceil(n / 100) batch fetches and returns one
feature per id in order; findLikedFromMonth always terminates (possibly
by throwing) and makes at most ceil(total / 25) + 1 page fetches, the
possible extra fetch being the empty page past the end of the history. -/
theorem C4_amended_pagination :
    (∀ (f : Nat → Int) (tracksIds : List Nat),
      getAudioFeatures f tracksIds
        = (some (tracksIds.map f), ceilDiv tracksIds.length 100)) ∧
    (∀ (lib : List Track) (s e : Int),
      (findLikedFromMonth lib s e).2 ≤ ceilDiv lib.length 25 + 1) := by
  constructor
  · intro f tracksIds
    exact gafGo_spec f (tracksIds.length + 1) tracksIds [] tracksIds.length
      (by omega) (by simp)
  · intro lib s e
    exact flmGo_count_le s e lib.length (lib.length + 1) 1 lib []

/-- Claim C5, counterexample: on an empty saved-tracks history the very
first fetched page is empty; findLikedFromMonth throws the TypeError from
songs[0].added_at (modelled none) instead of returning the items
collected so far (the empty list). -/
theorem C5_counterexample :
    findLikedFromMonth ([] : List Track) 10 20 = (none, 1) := rfl

/-- Claim C5, amended: whenever the month-scan loop fetches an empty page
while its collection is still short of the reported total, it throws
(modelled none) after that one fetch; it never treats the empty page as
an exhausted source and never returns the items collected so far. -/
theorem C5_amended_empty_page : ∀ (s e : Int) (T total : Nat) (acc : List Track) (fuel : Nat),
    acc.length < total →
    flmGo s e T (fuel + 1) total [] acc = (none, 1) := by
  intro s e T total acc fuel h
  simp [flmGo, if_pos h]

/-- Claim C5, witness: the loop state reached on an empty history. -/
theorem C5_amended_empty_page_witness :
    flmGo 10 20 0 1 1 [] [] = (none, 1) :=
  C5_amended_empty_page 10 20 0 1 [] 0 (by decide)

/-- Claim C6: the part_003 gateway compares now against the stored
updated_at plus the fixed 3600-second window before executing the
operation: if less than 3600 seconds have elapsed it uses the stored
access token and leaves the users table untouched, calling no refresh;
if at least 3600 seconds have elapsed it calls the refresh endpoint,
persists the refreshed access/refresh pair (stamping updated_at) on the
rows of this user, and uses the refreshed access token. -/
theorem C6_expiry_gate : ∀ (now dbNow : Int) (refreshed : TokenPair)
    (table : List UserRow) (id : String) (user : UserRow),
    table.find? (fun r => r.user_id == id) = some user →
    (now - user.updated_at < tokenExpirationTime →
      gatewayPrepare now dbNow refreshed table id
        = some (table, user.access_token, false)) ∧
    (tokenExpirationTime ≤ now - user.updated_at →
      ∃ table2,
        gatewayPrepare now dbNow refreshed table id
          = some (table2, refreshed.access_token, true) ∧
        (∀ r ∈ table2, r.user_id = id → r.access_token = refreshed.access_token ∧
          r.refresh_token = refreshed.refresh_token ∧ r.updated_at = dbNow) ∧
        (∀ r ∈ table, ¬ r.user_id = id → r ∈ table2)) := by
  intro now dbNow refreshed table id user hfind
  constructor
  · intro hlt
    simp only [gatewayPrepare, hfind]
    rw [if_neg (not_le.mpr hlt)]
  · intro hge
    refine ⟨table.map (fun r => if r.user_id == id then
        { r with access_token := refreshed.access_token,
                 refresh_token := refreshed.refresh_token,
                 updated_at := dbNow } else r), ?_, ?_, ?_⟩
    · simp only [gatewayPrepare, hfind]
      rw [if_pos hge]
    · intro r hr hid
      obtain ⟨r0, hr0, hfr⟩ := List.mem_map.mp hr
      by_cases h0 : (r0.user_id == id) = true
      · rw [if_pos h0] at hfr
        rw [← hfr]
        exact ⟨rfl, rfl, rfl⟩
      · rw [if_neg h0] at hfr
        exfalso
        rw [← hfr] at hid
        exact h0 (by simp [hid])
    · intro r hr hid
      apply List.mem_map.mpr
      refine ⟨r, hr, ?_⟩
      rw [if_neg (by simp [hid])]

/-- Claim C6, witness: a user refreshed 0 seconds ago is used as stored,
with no table write and no refresh call. -/
theorem C6_expiry_gate_witness :
    gatewayPrepare 1000 5000 ⟨"at2", "rt2"⟩
      [⟨"u1", "at", "rt", 3600, "api", 1000⟩] "u1"
      = some ([⟨"u1", "at", "rt", 3600, "api", 1000⟩], "at", false) :=
  (C6_expiry_gate 1000 5000 ⟨"at2", "rt2"⟩
    [⟨"u1", "at", "rt", 3600, "api", 1000⟩] "u1"
    ⟨"u1", "at", "rt", 3600, "api", 1000⟩ rfl).1 (by decide)

/-- Claim C7: createRecommendationPlaylist with every condition flag
false, no genre, no feature switches and no target values returns the
structured error result for missing options (not a thrown exception, the
guard path has no throw) and issues zero upstream calls. -/
theorem C7_no_options_guard : ∀ env : RecEnv,
    createRecommendationPlaylist env
      { genre := none, recentlyPlayed := false, mostPlayed := false,
        likedTracks := false, currentlyPlaying := false,
        useAudioFeatures := false, useTrackSeeds := false, targetValues := none }
      = (RecResult.errorResult "No options selected.", 0) := by
  intro env
  rfl

set_option maxRecDepth 8192 in
/-- Claim C8: addTracksToPlaylistAndRetrieve issues exactly
ceil(n / batch) add-calls whose payloads are the consecutive uris in
original order, every batch nonempty and of the batch size except a
smaller final remainder, followed by exactly one playlist fetch whose
body is returned; the same batching loop at a per-call limit of 100 over
230 uris gives batches of 100, 100 and 30. -/
theorem C8_batching : ∀ (body : Nat) (uris : List Nat),
    ((addTracksToPlaylistAndRetrieve body uris).addCalls.length
        = ceilDiv uris.length maxBatch) ∧
    ((addTracksToPlaylistAndRetrieve body uris).addCalls.flatten = uris) ∧
    (∀ b ∈ (addTracksToPlaylistAndRetrieve body uris).addCalls,
        b ≠ [] ∧ b.length ≤ maxBatch) ∧
    (∀ b ∈ (addTracksToPlaylistAndRetrieve body uris).addCalls.dropLast,
        b.length = maxBatch) ∧
    (addTracksToPlaylistAndRetrieve body uris).fetchCalls = 1 ∧
    (addTracksToPlaylistAndRetrieve body uris).result = body ∧
    (chunkEvery 100 (List.range 230)).map List.length = [100, 100, 30] := by
  intro body uris
  have hm : 0 < maxBatch := by decide
  exact ⟨chunkEveryGo_length hm uris.length uris le_rfl,
    chunkEveryGo_join hm uris.length uris le_rfl,
    chunkEveryGo_mem hm uris.length uris le_rfl,
    chunkEveryGo_dropLast hm uris.length uris le_rfl,
    rfl, rfl, by decide⟩

/-- Claim C8, witness: 60 uris at batch size 25 cover the list in order
and the first batch is a full nonempty batch. -/
theorem C8_batching_witness :
    (addTracksToPlaylistAndRetrieve 7 (List.range 60)).addCalls.flatten
        = List.range 60 ∧
    ((List.range 60).take 25 ≠ [] ∧ ((List.range 60).take 25).length ≤ maxBatch) ∧
    (List.range 60).take 25 ∈ (addTracksToPlaylistAndRetrieve 7 (List.range 60)).addCalls := by
  refine ⟨(C8_batching 7 (List.range 60)).2.1, ?_, ?_⟩
  · exact (C8_batching 7 (List.range 60)).2.2.1 ((List.range 60).take 25) (by decide)
  · decide

/-- Claim C9: authorizationCodeGrant derives the stored api_token once,
as the hash of the external id concatenated with the access token
granted then, and the users-table update of handleTokenRefresh changes
only access_token and refresh_token: the projection of every row to
(user_id, api_token, expires_in) is unchanged, so the api token is
never recomputed when the access token rotates. -/
theorem C9_api_token_stability :
    (∀ (hash : String → String) (dbNow : Int) (table : List UserRow)
        (id acTok rfTok : String) (expSecs : Int),
      (authorizationCodeGrant hash dbNow table id acTok rfTok expSecs).2
          = hash (id ++ acTok) ∧
      (authorizationCodeGrant hash dbNow table id acTok rfTok expSecs).1
          = table ++ [{ user_id := id, access_token := acTok,
                        refresh_token := rfTok, expires_in := expSecs,
                        api_token := hash (id ++ acTok), updated_at := dbNow }]) ∧
    (∀ (table : List UserRow) (refreshToken : String) (pair : TokenPair),
      (handleTokenRefreshDb table refreshToken pair).map
          (fun r => (r.user_id, r.api_token, r.expires_in))
        = table.map (fun r => (r.user_id, r.api_token, r.expires_in))) := by
  constructor
  · intro hash dbNow table id acTok rfTok expSecs
    exact ⟨rfl, rfl⟩
  · intro table refreshToken pair
    unfold handleTokenRefreshDb
    rw [List.map_map]
    apply List.map_congr_left
    intro r hr
    by_cases h : r.refresh_token = refreshToken
    · simp [h]
    · simp [h]

/-- Corollary of the take-prefix invariant at the entry state of
findLikedFromMonth. -/
theorem findLikedFromMonth_some_take (lib : List Track) (s e : Int) (l : List Track)
    (h : (findLikedFromMonth lib s e).1 = some l) :
    ∃ k, l = (lib.take k).filter (inRange s e) := by
  obtain ⟨k, hk⟩ := flmGo_some_take s e lib.length (lib.length + 1) 1 lib [] l h
  exact ⟨k, by simpa using hk⟩

/-- Claim C10, counterexample: a user whose only liked track is dated
after the target month has zero in-range tracks, yet createPlaylist does
not return undefined: the scan throws on the empty page past the end and
createPlaylist rethrows (failed). No creation or insertion call is
issued. -/
theorem C10_counterexample :
    createPlaylist 0 [⟨0, 20240415⟩] 20240301 20240331
      = { result := .failed, createCalls := 0, addCalls := 0 } ∧
    CpResult.failed ≠ CpResult.noSongs := by
  decide

/-- Claim C10, amended: for a library with zero in-range tracks,
createPlaylist never creates a playlist and never issues a
playlist-creation or track-insertion call; when the scan completes
(returns the empty list) it returns undefined, but when the scan throws
the error propagates instead of an undefined return. -/
theorem C10_zero_in_range : ∀ (body : Nat) (lib : List Track) (s e : Int),
    lib.filter (inRange s e) = [] →
    (createPlaylist body lib s e).createCalls = 0 ∧
    (createPlaylist body lib s e).addCalls = 0 ∧
    (∀ p, (createPlaylist body lib s e).result ≠ CpResult.created p) ∧
    ((findLikedFromMonth lib s e).1 = some [] →
      createPlaylist body lib s e = { result := .noSongs, createCalls := 0, addCalls := 0 }) := by
  intro body lib s e hnil
  have hsome : ∀ l, (findLikedFromMonth lib s e).1 = some l → l = [] := by
    intro l hl
    obtain ⟨k, hk⟩ := findLikedFromMonth_some_take lib s e l hl
    have hkn : (lib.take k).filter (inRange s e) = [] := by
      apply List.filter_eq_nil_iff.mpr
      intro a ha
      exact List.filter_eq_nil_iff.mp hnil a (List.take_subset k lib ha)
    rw [hk, hkn]
  unfold createPlaylist
  cases hres : (findLikedFromMonth lib s e).1 with
  | none =>
    refine ⟨rfl, rfl, ?_, ?_⟩
    · intro p hp
      simp at hp
    · intro habs
      exact Option.noConfusion habs
  | some l =>
    have hl := hsome l hres
    subst hl
    simp only [List.length_nil, if_pos rfl]
    exact ⟨rfl, rfl, by intro p hp; simp at hp, fun _ => rfl⟩

/-- Claim C10, witness: a library whose only track predates the month:
the scan breaks immediately with the empty collection and createPlaylist
returns undefined with no creation or insertion call. -/
theorem C10_zero_in_range_witness :
    createPlaylist 0 [⟨5, 3⟩] 10 20
      = { result := .noSongs, createCalls := 0, addCalls := 0 } :=
  (C10_zero_in_range 0 [⟨5, 3⟩] 10 20 (by decide)).2.2.2 (by decide)

end Vibify
